import Mathlib

/-!
Verification of the Product domain: a validated entity factory
(`createProduct`), a throwing validator (`validateProduct`), and the Cosmos
storage adapter (`toDTO`/`toDomain`, `getById`, `save`, `delete`) together
with the ISO-8601 timestamp serialization used at the storage boundary.

JavaScript runtime values are modelled shallowly: numbers as `JSNumber`
(NaN, the two infinities, or a finite value represented exactly as a
rational), `Date` objects as `JSDate` (a millisecond timestamp or the
invalid date whose time value is NaN), and untrusted inputs as `JSValue`.
-/

set_option maxRecDepth 10000

/-- A JavaScript number: NaN, +Infinity, -Infinity, or a finite value
(represented exactly; every finite double is a rational). -/
inductive JSNumber where
  | nan
  | posInf
  | negInf
  | finite (q : ℚ)
  deriving DecidableEq

/-- A JavaScript `Date`: its time value is either a millisecond count since
the epoch or NaN (an "invalid date"). -/
inductive JSDate where
  | valid (ms : Int)
  | invalid
  deriving DecidableEq

/-- An untrusted JavaScript runtime value, as far as the validators inspect
it: `undefined`, `null`, a boolean, a number, a string, a `Date` object, or
some other (truthy) object. -/
inductive JSValue where
  | undefined
  | nullValue
  | boolean (b : Bool)
  | num (x : JSNumber)
  | str (s : String)
  | date (d : JSDate)
  | obj
  deriving DecidableEq

/-- The characters removed by `String.prototype.trim` (ECMAScript WhiteSpace
and LineTerminator code points). -/
def isJSWhitespace (c : Char) : Bool :=
  c = ' ' || c = '\t' || c = '\n' || c = '\r' || c = '\x0b' || c = '\x0c' ||
  c = '\u00A0' || c = '\u1680' || ('\u2000' ≤ c && c ≤ '\u200A') ||
  c = '\u2028' || c = '\u2029' || c = '\u202F' || c = '\u205F' ||
  c = '\u3000' || c = '\uFEFF'

/-- `s.trim()`: strip leading and trailing JavaScript whitespace. -/
def jsTrim (s : String) : String :=
  String.mk (((s.data.dropWhile (fun c => isJSWhitespace c)).reverse.dropWhile
    (fun c => isJSWhitespace c)).reverse)

/-- `typeof v === 'string'`. -/
def isStringValue : JSValue → Bool
  | JSValue.str _ => true
  | _ => false

/-- `typeof v === 'number'`. -/
def isNumberValue : JSValue → Bool
  | JSValue.num _ => true
  | _ => false

/-- JavaScript truthiness (`!v` is the negation of this). `undefined`,
`null`, `false`, `0`, `NaN` and the empty string are falsy; every object
(including every `Date`) is truthy. -/
def jsTruthy : JSValue → Bool
  | JSValue.undefined => false
  | JSValue.nullValue => false
  | JSValue.boolean b => b
  | JSValue.num JSNumber.nan => false
  | JSValue.num (JSNumber.finite q) => decide (q ≠ 0)
  | JSValue.num _ => true
  | JSValue.str s => decide (s ≠ "")
  | JSValue.date _ => true
  | JSValue.obj => true

/-! ## The entity factory (`product.ts`, canonical variant)

`isNonEmptyString`, `isNonNegativeNumber`, `toDateOrUndefined` and
`createProduct` translate the factory source: the canonical entity shape
with a decimal `price`, optional `description`/`category`, and both
timestamps. -/

/-- `typeof v === 'string' && v.trim().length > 0`. -/
def isNonEmptyString : JSValue → Bool
  | JSValue.str s => decide ((jsTrim s).length > 0)
  | _ => false

/-- `typeof v === 'number' && Number.isFinite(v) && v >= 0`. -/
def isNonNegativeNumber : JSValue → Bool
  | JSValue.num (JSNumber.finite q) => decide (0 ≤ q)
  | _ => false

/-- `v instanceof Date && !Number.isNaN(v.getTime()) ? v : undefined`. -/
def toDateOrUndefined : JSValue → Option JSDate
  | JSValue.date (JSDate.valid ms) => some (JSDate.valid ms)
  | _ => none

/-- Raw factory input (`ProductProps`); every field is untrusted. A missing
field is `JSValue.undefined`. -/
structure ProductProps where
  id : JSValue
  name : JSValue
  price : JSValue
  description : JSValue
  category : JSValue
  createdAt : JSValue
  updatedAt : JSValue
  deriving DecidableEq

/-- The frozen entity produced on success. The validated fields are copied
from the input verbatim (the freeze copies the raw values); the two
timestamps are the defaulted dates computed by the factory. -/
structure Product where
  id : JSValue
  name : JSValue
  price : JSValue
  description : JSValue
  category : JSValue
  createdAt : JSDate
  updatedAt : JSDate
  deriving DecidableEq

/-- `{ success: true; product } | { success: false; errors }`. -/
inductive CreateProductResult where
  | success (product : Product)
  | failure (errors : List String)
  deriving DecidableEq

def idErrorMsg : String := "id is required and must be a non-empty string"

def nameErrorMsg : String := "name is required and must be a non-empty string"

def priceErrorMsg : String := "price is required and must be a non-negative number"

def descriptionErrorMsg : String := "description, if provided, must be a string"

def categoryErrorMsg : String := "category, if provided, must be a string"

/-- The `errors` list the factory accumulates: each of the five rules, in
order, appends its message when violated. -/
def ruleErrors (props : ProductProps) : List String :=
  (if isNonEmptyString props.id then [] else [idErrorMsg]) ++
  (if isNonEmptyString props.name then [] else [nameErrorMsg]) ++
  (if isNonNegativeNumber props.price then [] else [priceErrorMsg]) ++
  (if props.description ≠ JSValue.undefined ∧ ¬ isStringValue props.description then
    [descriptionErrorMsg] else []) ++
  (if props.category ≠ JSValue.undefined ∧ ¬ isStringValue props.category then
    [categoryErrorMsg] else [])

/-- `toDateOrUndefined(props.createdAt) ?? new Date()`. -/
def defaultedCreatedAt (now : Int) (props : ProductProps) : JSDate :=
  (toDateOrUndefined props.createdAt).getD (JSDate.valid now)

/-- `toDateOrUndefined(props.updatedAt) ?? createdAt`. -/
def defaultedUpdatedAt (now : Int) (props : ProductProps) : JSDate :=
  (toDateOrUndefined props.updatedAt).getD (defaultedCreatedAt now props)

/-- The factory. `now` is the millisecond timestamp `new Date()` would
produce at the call; the factory is deterministic given the input and
`now`. The five rules are all checked (`ruleErrors`); the timestamps are
defaulted unconditionally; a non-empty `errors` list is returned as a
failure, otherwise the frozen entity is returned. -/
def createProduct (now : Int) (props : ProductProps) : CreateProductResult :=
  let errors : List String := ruleErrors props
  let createdAt : JSDate := defaultedCreatedAt now props
  let updatedAt : JSDate := defaultedUpdatedAt now props
  if errors = [] then
    CreateProductResult.success
      { id := props.id, name := props.name, price := props.price,
        description := props.description, category := props.category,
        createdAt := createdAt, updatedAt := updatedAt }
  else
    CreateProductResult.failure errors

/-! ## The stored-entity variant and its throwing validator

The same source file also declares the storage-oriented entity shape
(`Product` with an integer `pricePence`, a required `description`, and a
single `updatedAt` timestamp), the `ProductError` exception, and the
fail-fast `validateProduct` guard. They live in the `Pence` namespace here
because the canonical names above are taken by the richer variant. -/

namespace Pence

/-- The storage-oriented entity shape. An entity's `updatedAt` is a `Date`;
a well-formed one is valid (its time value is not NaN). -/
structure Product where
  id : String
  name : String
  pricePence : JSNumber
  description : String
  updatedAt : JSDate
  deriving DecidableEq

/-- `CreateProductParams`, as `validateProduct` receives them: every field
is re-checked dynamically, so each is modelled as an untrusted value. -/
structure CreateProductParams where
  id : JSValue
  name : JSValue
  pricePence : JSValue
  description : JSValue
  updatedAt : JSValue
  deriving DecidableEq

/-- `ProductError extends Error` with its `field` and `message`. -/
structure ProductError where
  field : String
  message : String
  deriving DecidableEq

/-- `v.trim() === ''`, evaluated only on strings (short-circuit keeps it
unreached otherwise). -/
def trimIsEmpty : JSValue → Bool
  | JSValue.str s => decide (jsTrim s = "")
  | _ => false

/-- `!v || typeof v !== 'string' || v.trim() === ''`: the failure condition
shared by the `id`, `name` and `description` checks. -/
def failsNonEmptyStringCheck (v : JSValue) : Bool :=
  !jsTruthy v || !isStringValue v || trimIsEmpty v

/-- `v < 0`, evaluated only on numbers (`NaN < 0` is false). -/
def ltZero : JSValue → Bool
  | JSValue.num (JSNumber.finite q) => decide (q < 0)
  | JSValue.num JSNumber.negInf => true
  | _ => false

/-- `Number.isInteger(v)`. -/
def jsIsInteger : JSValue → Bool
  | JSValue.num (JSNumber.finite q) => decide (q.den = 1)
  | _ => false

/-- `typeof v !== 'number' || v < 0 || !Number.isInteger(v)`. -/
def failsPricePenceCheck (v : JSValue) : Bool :=
  !isNumberValue v || ltZero v || !jsIsInteger v

/-- `!(v instanceof Date) || isNaN(v.getTime())`. -/
def failsValidDateCheck : JSValue → Bool
  | JSValue.date (JSDate.valid _) => false
  | _ => true

def idProductError : ProductError :=
  { field := "id", message := "Product id must be a non-empty string." }

def nameProductError : ProductError :=
  { field := "name", message := "Product name must be a non-empty string." }

def pricePenceProductError : ProductError :=
  { field := "pricePence", message := "Product pricePence must be a non-negative integer." }

def descriptionProductError : ProductError :=
  { field := "description", message := "Product description must be a non-empty string." }

def updatedAtProductError : ProductError :=
  { field := "updatedAt", message := "updatedAt must be a valid Date object." }

/-- The throwing validator: the five rules are checked in order and the
first violated one throws; reaching the end returns normally. -/
def validateProduct (params : CreateProductParams) : Except ProductError Unit :=
  if failsNonEmptyStringCheck params.id then
    Except.error idProductError
  else if failsNonEmptyStringCheck params.name then
    Except.error nameProductError
  else if failsPricePenceCheck params.pricePence then
    Except.error pricePenceProductError
  else if failsNonEmptyStringCheck params.description then
    Except.error descriptionProductError
  else if failsValidDateCheck params.updatedAt then
    Except.error updatedAtProductError
  else
    Except.ok ()

/-- The acceptance condition claimed for `validateProduct` (following the
claim's words, for comparison with the implementation): id and name
non-empty after trimming, `pricePence` a non-negative integer,
`description` a non-empty string, `updatedAt` a valid `Date`. -/
def claimedAccepts (p : CreateProductParams) : Prop :=
  (∃ s, p.id = JSValue.str s ∧ jsTrim s ≠ "") ∧
  (∃ s, p.name = JSValue.str s ∧ jsTrim s ≠ "") ∧
  (∃ q : ℚ, p.pricePence = JSValue.num (JSNumber.finite q) ∧ 0 ≤ q ∧ q.den = 1) ∧
  (∃ s, p.description = JSValue.str s ∧ s ≠ "") ∧
  (∃ ms : Int, p.updatedAt = JSValue.date (JSDate.valid ms))

end Pence

/-! ## ISO-8601 timestamps

The storage adapter serializes `updatedAt` with `Date.prototype.toISOString`
and reads it back with `new Date(isoString)`. These are ECMAScript builtins
(external to the repository), modelled here in full: a proleptic Gregorian
calendar conversion (days since the epoch to civil year-month-day and back)
and the fixed `YYYY-MM-DDTHH:MM:SS.sssZ` layout, with the expanded
`+YYYYYY`/`-YYYYYY` year forms used outside years 0..9999. A `Date` is
valid exactly when the magnitude of its time value is at most 8.64e15 ms. -/

/-- Length in days of March-based year-of-era `yoe` (0..399): it contains a
Feb 29 exactly when civil year `yoe + 1` is a Gregorian leap year. -/
def yoeLen (yoe : Nat) : Nat :=
  if (yoe + 1) % 4 = 0 ∧ ((yoe + 1) % 100 ≠ 0 ∨ (yoe + 1) % 400 = 0) then 366 else 365

/-- First day-of-era of year-of-era `yoe` (valid for `yoe ≤ 399`). -/
def yoeStart (yoe : Nat) : Nat := 365 * yoe + yoe / 4 - yoe / 100

/-- Walk through the years of one 400-year era to locate a day-of-era:
`yearScanAux fuel yoe doe` returns the year-of-era containing the day and
the day-of-year within it. -/
def yearScanAux : Nat → Nat → Nat → Nat × Nat
  | 0, yoe, doe => (yoe, doe)
  | fuel + 1, yoe, doe =>
    if yoeLen yoe ≤ doe then yearScanAux fuel (yoe + 1) (doe - yoeLen yoe) else (yoe, doe)

/-- Gregorian civil date (year, month, day) from days since 1970-01-01. -/
def civilFromDays (z : Int) : Int × Int × Int :=
  let era : Int := (z + 719468) / 146097
  let doe : Nat := (z + 719468 - era * 146097).toNat
  let p := yearScanAux 399 0 doe
  let mp := (5 * p.2 + 2) / 153
  let d := p.2 - (153 * mp + 2) / 5 + 1
  let m := if mp < 10 then mp + 3 else mp - 9
  ((p.1 : Int) + era * 400 + (if m ≤ 2 then 1 else 0), (m : Int), (d : Int))

/-- Days since 1970-01-01 from a Gregorian civil date. -/
def daysFromCivil (y m d : Int) : Int :=
  let y' := if m ≤ 2 then y - 1 else y
  let era := y' / 400
  let yoe := y' - era * 400
  let mp := if 2 < m then m - 3 else m + 9
  let doy := (153 * mp + 2) / 5 + d - 1
  let doe := yoe * 365 + yoe / 4 - yoe / 100 + doy
  era * 146097 + doe - 719468

/-- The decimal digit character for `d` (0..9). -/
def digitChar (d : Nat) : Char := Char.ofNat (48 + d)

/-- `v` rendered as exactly `n` decimal digits, most significant first
(zero-padded on the left; correct for `v < 10 ^ n`). -/
def padDigits : Nat → Nat → List Char
  | 0, _ => []
  | n + 1, v => digitChar (v / 10 ^ n) :: padDigits n (v % 10 ^ n)

def isDigitChar (c : Char) : Bool := decide (48 ≤ c.toNat) && decide (c.toNat ≤ 57)

/-- Read exactly `n` decimal digits, extending the accumulator `acc`. -/
def readDigitsAux : Nat → Nat → List Char → Option (Nat × List Char)
  | 0, acc, cs => some (acc, cs)
  | n + 1, acc, c :: cs =>
    if isDigitChar c then readDigitsAux n (acc * 10 + (c.toNat - 48)) cs else none
  | _ + 1, _, [] => none

/-- Consume one expected character. -/
def expectChar (c : Char) : List Char → Option (List Char)
  | c' :: cs => if c' = c then some cs else none
  | [] => none

/-- Parse the year of an ISO string: either a sign followed by six digits
(the expanded year form) or four digits. -/
def parseYearPart : List Char → Option (Int × List Char)
  | [] => none
  | c :: rest =>
    if c = '+' then (readDigitsAux 6 0 rest).map (fun p => ((p.1 : Int), p.2))
    else if c = '-' then (readDigitsAux 6 0 rest).map (fun p => (-(p.1 : Int), p.2))
    else (readDigitsAux 4 0 (c :: rest)).map (fun p => ((p.1 : Int), p.2))

/-- The character list `toISOString` produces for time value `ms`:
`YYYY-MM-DDTHH:MM:SS.sssZ`, with the year expanded to a signed six-digit
form outside 0..9999. -/
def isoCharsOfMs (ms : Int) : List Char :=
  let z := ms / 86400000
  let msod := (ms % 86400000).toNat
  let c := civilFromDays z
  let yearChars :=
    if 0 ≤ c.1 ∧ c.1 ≤ 9999 then padDigits 4 c.1.toNat
    else (if c.1 < 0 then '-' else '+') :: padDigits 6 c.1.natAbs
  yearChars ++ '-' :: padDigits 2 c.2.1.toNat ++ '-' :: padDigits 2 c.2.2.toNat ++
    'T' :: padDigits 2 (msod / 3600000) ++ ':' :: padDigits 2 (msod / 60000 % 60) ++
    ':' :: padDigits 2 (msod / 1000 % 60) ++ '.' :: padDigits 3 (msod % 1000) ++ ['Z']


/-- The date-time tail of an ISO string after the year: month, day and
time fields, each a fixed-width digit group with its separator, a closing
`Z`, range validation, and clipping to the representable range. -/
def parseISORest (y : Int) (rest : List Char) : Option Int :=
  match expectChar '-' rest with
  | none => none
  | some r2 =>
  match readDigitsAux 2 0 r2 with
  | none => none
  | some (mo, r3) =>
  match expectChar '-' r3 with
  | none => none
  | some r4 =>
  match readDigitsAux 2 0 r4 with
  | none => none
  | some (dy, r5) =>
  match expectChar 'T' r5 with
  | none => none
  | some r6 =>
  match readDigitsAux 2 0 r6 with
  | none => none
  | some (hh, r7) =>
  match expectChar ':' r7 with
  | none => none
  | some r8 =>
  match readDigitsAux 2 0 r8 with
  | none => none
  | some (mi, r9) =>
  match expectChar ':' r9 with
  | none => none
  | some r10 =>
  match readDigitsAux 2 0 r10 with
  | none => none
  | some (ss, r11) =>
  match expectChar '.' r11 with
  | none => none
  | some r12 =>
  match readDigitsAux 3 0 r12 with
  | none => none
  | some (mmm, r13) =>
  match expectChar 'Z' r13 with
  | none => none
  | some r14 =>
  match r14 with
  | [] =>
    if 1 ≤ mo ∧ mo ≤ 12 ∧ 1 ≤ dy ∧ dy ≤ 31 ∧ hh ≤ 23 ∧ mi ≤ 59 ∧ ss ≤ 59 then
      let t := daysFromCivil y (mo : Int) (dy : Int) * 86400000 +
        ((hh : Int) * 3600000 + (mi : Int) * 60000 + (ss : Int) * 1000 + (mmm : Int))
      if t.natAbs ≤ 8640000000000000 then some t else none
    else none
  | _ => none

/-- `new Date(s).getTime()` for an ISO date-time string: parse the year and
the date-time tail; any other string yields NaN (modelled as `none`). -/
def parseISOChars (cs : List Char) : Option Int :=
  match parseYearPart cs with
  | none => none
  | some (y, rest) => parseISORest y rest

/-- `d.toISOString()`: defined on valid dates; an invalid date throws a
RangeError, modelled as `none`. -/
def dateToISOString : JSDate → Option String
  | JSDate.valid ms => some (String.mk (isoCharsOfMs ms))
  | JSDate.invalid => none

/-- `new Date(s)` for a string argument. -/
def parseDateString (s : String) : JSDate :=
  match parseISOChars s.data with
  | some t => JSDate.valid t
  | none => JSDate.invalid

/-! ## The Cosmos storage adapter

`CosmosProductRepo` maps between the domain entity and a private stored
DTO, and maps backend 404 signals onto the contract's absent result. The
backing container itself is an external collaborator reached only through
`item(id).read()`, `items.upsert(dto)` and `item(id).delete()`; it is
modelled as a list of stored DTOs keyed by `id`, whose read and delete
calls reject with a 404-coded error when the id is absent, and whose
upsert returns the stored resource with backend-assigned metadata
(`_etag`, `_ts`) attached. Each adapter method is split into the backend
call on the store and a pure continuation on the call's outcome, so that
the error-mapping branches can also be stated for arbitrary thrown
errors. -/

namespace Cosmos

/-- A backend rejection value, as far as the adapter inspects it
(`err?.code`, `err?.statusCode`), plus its class name. -/
structure CosmosError where
  name : String
  code : Option Int
  statusCode : Option Int
  deriving DecidableEq

/-- `err?.code === 404 || err?.statusCode === 404`. -/
def isNotFound404 (e : CosmosError) : Bool :=
  e.code == some 404 || e.statusCode == some 404

/-- The not-found rejection the Cosmos SDK produces. -/
def notFoundError : CosmosError :=
  { name := "NotFoundError", code := some 404, statusCode := some 404 }

/-- The RangeError `toISOString` throws on an invalid date (no status
codes, so it is never treated as a 404). -/
def rangeError : CosmosError :=
  { name := "RangeError", code := none, statusCode := none }

/-- The internal DTO stored in the Cosmos container: a flat record with
the timestamp as an ISO string, plus optional backend metadata. -/
structure ProductDTO where
  id : String
  name : String
  pricePence : JSNumber
  description : String
  updatedAt : String
  _etag : Option String
  _ts : Option Int
  deriving DecidableEq

/-- The result of awaiting a backend call: a resolved value or a thrown
error. -/
inductive CosmosOutcome (α : Type) where
  | resolved (val : α)
  | thrown (e : CosmosError)
  deriving DecidableEq

/-- `toDTO`: serialize the entity. `toISOString` throws a RangeError on an
invalid date (modelled as `none`); a well-formed entity always serializes. -/
def toDTO (product : Pence.Product) : Option ProductDTO :=
  (dateToISOString product.updatedAt).map (fun iso =>
    { id := product.id, name := product.name, pricePence := product.pricePence,
      description := product.description, updatedAt := iso,
      _etag := none, _ts := none })

/-- `toDomain`: map a stored DTO back to the entity; backend metadata is
not carried over. -/
def toDomain (dto : ProductDTO) : Pence.Product :=
  { id := dto.id, name := dto.name, pricePence := dto.pricePence,
    description := dto.description, updatedAt := parseDateString dto.updatedAt }

/-- The backing container state. -/
abbrev Store := List ProductDTO

/-- `container.item(id).read()`: resolves with the stored resource, or
rejects with a 404-coded error when the id is absent. -/
def readItem (s : Store) (id : String) : CosmosOutcome (Option ProductDTO) :=
  match s.find? (fun dto => dto.id == id) with
  | some dto => CosmosOutcome.resolved (some dto)
  | none => CosmosOutcome.thrown notFoundError

/-- `container.items.upsert(dto)`: replace or insert keyed by `id`, and
resolve with the stored resource carrying backend-assigned metadata. -/
def upsertItem (s : Store) (dto : ProductDTO) (etag : String) (ts : Int) :
    Store × ProductDTO :=
  let stored := { dto with _etag := some etag, _ts := some ts }
  (s.filter (fun d => !(d.id == dto.id)) ++ [stored], stored)

/-- `container.item(id).delete()`: remove the item, or reject with a
404-coded error when the id is absent. -/
def deleteItem (s : Store) (id : String) : Store × CosmosOutcome Unit :=
  if s.any (fun d => d.id == id) then
    (s.filter (fun d => !(d.id == id)), CosmosOutcome.resolved ())
  else
    (s, CosmosOutcome.thrown notFoundError)

/-- The body of `getById` as a function of the awaited read outcome:
a missing resource gives `null`, a thrown 404 is caught and gives `null`,
any other thrown error is rethrown unchanged. -/
def getByIdOfOutcome (resp : CosmosOutcome (Option ProductDTO)) :
    Except CosmosError (Option Pence.Product) :=
  match resp with
  | CosmosOutcome.resolved (some dto) => Except.ok (some (toDomain dto))
  | CosmosOutcome.resolved none => Except.ok none
  | CosmosOutcome.thrown e =>
    if isNotFound404 e then Except.ok none else Except.error e

/-- `getById` against the modelled container. -/
def getById (s : Store) (id : String) : Except CosmosError (Option Pence.Product) :=
  getByIdOfOutcome (readItem s id)

/-- The tail of `save` as a function of the awaited upsert outcome: map the
returned resource back to the domain, defensively returning the input
product if the backend returned no resource; a thrown error propagates. -/
def saveOfOutcome (product : Pence.Product) (resp : CosmosOutcome (Option ProductDTO)) :
    Except CosmosError Pence.Product :=
  match resp with
  | CosmosOutcome.resolved (some resource) => Except.ok (toDomain resource)
  | CosmosOutcome.resolved none => Except.ok product
  | CosmosOutcome.thrown e => Except.error e

/-- `save` against the modelled container: serialize, upsert, map back. -/
def save (s : Store) (etag : String) (ts : Int) (product : Pence.Product) :
    Store × Except CosmosError Pence.Product :=
  match toDTO product with
  | none => (s, Except.error rangeError)
  | some dto =>
    let r := upsertItem s dto etag ts
    (r.1, saveOfOutcome product (CosmosOutcome.resolved (some r.2)))

/-- The body of `delete` as a function of the awaited delete outcome: a
thrown 404 is swallowed, any other thrown error is rethrown unchanged. -/
def deleteOfOutcome (resp : CosmosOutcome Unit) : Except CosmosError Unit :=
  match resp with
  | CosmosOutcome.resolved _ => Except.ok ()
  | CosmosOutcome.thrown e =>
    if isNotFound404 e then Except.ok () else Except.error e

/-- `delete` against the modelled container. -/
def delete (s : Store) (id : String) : Store × Except CosmosError Unit :=
  let r := deleteItem s id
  (r.1, deleteOfOutcome r.2)

end Cosmos

/-! ## Factory lemmas -/

theorem createProduct_eq (now : Int) (props : ProductProps) :
    createProduct now props =
      if ruleErrors props = [] then
        CreateProductResult.success
          { id := props.id, name := props.name, price := props.price,
            description := props.description, category := props.category,
            createdAt := defaultedCreatedAt now props,
            updatedAt := defaultedUpdatedAt now props }
      else CreateProductResult.failure (ruleErrors props) := rfl

theorem isNonNegativeNumber_iff (v : JSValue) :
    isNonNegativeNumber v = true ↔ ∃ q : ℚ, v = JSValue.num (JSNumber.finite q) ∧ 0 ≤ q := by
  cases v with
  | num x => cases x <;> simp [isNonNegativeNumber]
  | undefined => simp [isNonNegativeNumber]
  | nullValue => simp [isNonNegativeNumber]
  | boolean b => simp [isNonNegativeNumber]
  | str s => simp [isNonNegativeNumber]
  | date d => simp [isNonNegativeNumber]
  | obj => simp [isNonNegativeNumber]

theorem isStringValue_iff (v : JSValue) :
    isStringValue v = true ↔ ∃ s, v = JSValue.str s := by
  cases v <;> simp [isStringValue]

theorem defaultedCreatedAt_valid (now : Int) (props : ProductProps) :
    ∃ ms : Int, defaultedCreatedAt now props = JSDate.valid ms := by
  unfold defaultedCreatedAt toDateOrUndefined
  cases hc : props.createdAt with
  | date d => cases d <;> simp
  | undefined => simp
  | nullValue => simp
  | boolean b => simp
  | num x => simp
  | str s => simp
  | obj => simp

theorem defaultedUpdatedAt_valid (now : Int) (props : ProductProps) :
    ∃ ms : Int, defaultedUpdatedAt now props = JSDate.valid ms := by
  unfold defaultedUpdatedAt toDateOrUndefined
  cases hu : props.updatedAt with
  | date d =>
    cases d with
    | valid ms => exact ⟨ms, rfl⟩
    | invalid => simpa using defaultedCreatedAt_valid now props
  | undefined => simpa using defaultedCreatedAt_valid now props
  | nullValue => simpa using defaultedCreatedAt_valid now props
  | boolean b => simpa using defaultedCreatedAt_valid now props
  | num x => simpa using defaultedCreatedAt_valid now props
  | str s => simpa using defaultedCreatedAt_valid now props
  | obj => simpa using defaultedCreatedAt_valid now props

theorem ruleErrors_eq_nil_iff (props : ProductProps) :
    ruleErrors props = [] ↔
      (isNonEmptyString props.id = true ∧ isNonEmptyString props.name = true ∧
       isNonNegativeNumber props.price = true ∧
       ¬ (props.description ≠ JSValue.undefined ∧ ¬ isStringValue props.description = true) ∧
       ¬ (props.category ≠ JSValue.undefined ∧ ¬ isStringValue props.category = true)) := by
  unfold ruleErrors
  by_cases h1 : isNonEmptyString props.id = true <;>
  by_cases h2 : isNonEmptyString props.name = true <;>
  by_cases h3 : isNonNegativeNumber props.price = true <;>
  by_cases h4 : (props.description ≠ JSValue.undefined ∧ ¬ isStringValue props.description = true) <;>
  by_cases h5 : (props.category ≠ JSValue.undefined ∧ ¬ isStringValue props.category = true) <;>
  simp [h1, h2, h3, h4, h5]

/-- C1: every successful `createProduct` result is an entity satisfying all
field constraints and carrying all fields: a non-empty (after trimming)
string id and name, a finite non-negative decimal price stored verbatim in
`price` (not normalized to minor units), optional string description and
category, and valid `createdAt` and `updatedAt` timestamps, with
`createdAt` defaulting to the construction time `now` when not supplied;
invalid input never reaches the entity constructor. -/
theorem createProduct_success_wellformed (now : Int) (props : ProductProps)
    (p : Product) (h : createProduct now props = CreateProductResult.success p) :
    isNonEmptyString p.id = true ∧
    isNonEmptyString p.name = true ∧
    (∃ q : ℚ, p.price = JSValue.num (JSNumber.finite q) ∧ 0 ≤ q) ∧
    p.price = props.price ∧
    (p.description = JSValue.undefined ∨ ∃ s, p.description = JSValue.str s) ∧
    (p.category = JSValue.undefined ∨ ∃ s, p.category = JSValue.str s) ∧
    (∃ cms : Int, p.createdAt = JSDate.valid cms) ∧
    (∃ ums : Int, p.updatedAt = JSDate.valid ums) ∧
    (toDateOrUndefined props.createdAt = none → p.createdAt = JSDate.valid now) := by
  rw [createProduct_eq] at h
  split at h
  case isTrue hnil =>
    rw [CreateProductResult.success.injEq] at h
    subst h
    obtain ⟨h1, h2, h3, h4, h5⟩ := (ruleErrors_eq_nil_iff props).mp hnil
    refine ⟨h1, h2, (isNonNegativeNumber_iff _).mp h3, rfl, ?_, ?_,
      defaultedCreatedAt_valid now props, defaultedUpdatedAt_valid now props, ?_⟩
    · by_cases hd : props.description = JSValue.undefined
      · exact Or.inl hd
      · refine Or.inr ((isStringValue_iff _).mp ?_)
        by_contra hns
        exact h4 ⟨hd, hns⟩
    · by_cases hc : props.category = JSValue.undefined
      · exact Or.inl hc
      · refine Or.inr ((isStringValue_iff _).mp ?_)
        by_contra hns
        exact h5 ⟨hc, hns⟩
    · intro hnone
      show defaultedCreatedAt now props = JSDate.valid now
      unfold defaultedCreatedAt
      rw [hnone]
      rfl
  case isFalse hnil => cases h

theorem createProduct_success_wellformed_witness :
    isNonEmptyString (JSValue.str "p1") = true :=
  (createProduct_success_wellformed 0
    { id := JSValue.str "p1", name := JSValue.str "Widget",
      price := JSValue.num (JSNumber.finite 999), description := JSValue.undefined,
      category := JSValue.undefined, createdAt := JSValue.undefined,
      updatedAt := JSValue.undefined }
    { id := JSValue.str "p1", name := JSValue.str "Widget",
      price := JSValue.num (JSNumber.finite 999), description := JSValue.undefined,
      category := JSValue.undefined, createdAt := JSDate.valid 0,
      updatedAt := JSDate.valid 0 }
    (by decide)).1

/-- C9: `createProduct` on id `""`, name `"Widget"`, price `-1` fails with
exactly the id-required and price-non-negative messages, in rule order. -/
theorem createProduct_example_two_errors (now : Int) :
    createProduct now
      { id := JSValue.str "", name := JSValue.str "Widget",
        price := JSValue.num (JSNumber.finite (-1)), description := JSValue.undefined,
        category := JSValue.undefined, createdAt := JSValue.undefined,
        updatedAt := JSValue.undefined } =
      CreateProductResult.failure [idErrorMsg, priceErrorMsg] := rfl

theorem count_if_not (b : Prop) [Decidable b] (m a : String) :
    List.count a (if b then ([] : List String) else [m]) =
      if b then 0 else (if m = a then 1 else 0) := by
  split
  · simp
  · simp [List.count_cons, List.count_nil]

theorem count_if_pos (b : Prop) [Decidable b] (m a : String) :
    List.count a (if b then [m] else ([] : List String)) =
      if b then (if m = a then 1 else 0) else 0 := by
  split
  · simp [List.count_cons, List.count_nil]
  · simp

theorem count_ruleErrors (props : ProductProps) :
    (ruleErrors props).count idErrorMsg = (if isNonEmptyString props.id = true then 0 else 1) ∧
    (ruleErrors props).count nameErrorMsg = (if isNonEmptyString props.name = true then 0 else 1) ∧
    (ruleErrors props).count priceErrorMsg =
      (if isNonNegativeNumber props.price = true then 0 else 1) ∧
    (ruleErrors props).count descriptionErrorMsg =
      (if props.description ≠ JSValue.undefined ∧ ¬ isStringValue props.description = true
        then 1 else 0) ∧
    (ruleErrors props).count categoryErrorMsg =
      (if props.category ≠ JSValue.undefined ∧ ¬ isStringValue props.category = true
        then 1 else 0) := by
  unfold ruleErrors
  refine ⟨?_, ?_, ?_, ?_, ?_⟩ <;>
  · simp only [List.count_append, count_if_not, count_if_pos]
    simp +decide [idErrorMsg, nameErrorMsg, priceErrorMsg, descriptionErrorMsg,
      categoryErrorMsg]

/-- C2: `createProduct` checks all five rules on every input and collects
one message per violated rule in a single call (not fail-fast): it succeeds
exactly when no rule is violated, and on failure the error list is
non-empty and contains each rule's message exactly as often as that rule is
violated (once if violated, never otherwise). -/
theorem createProduct_collects_all_violations (now : Int) (props : ProductProps) :
    ((∃ p, createProduct now props = CreateProductResult.success p) ↔
      (isNonEmptyString props.id = true ∧ isNonEmptyString props.name = true ∧
       isNonNegativeNumber props.price = true ∧
       ¬ (props.description ≠ JSValue.undefined ∧ ¬ isStringValue props.description = true) ∧
       ¬ (props.category ≠ JSValue.undefined ∧ ¬ isStringValue props.category = true))) ∧
    (∀ errs, createProduct now props = CreateProductResult.failure errs →
      errs ≠ [] ∧
      errs.count idErrorMsg = (if isNonEmptyString props.id = true then 0 else 1) ∧
      errs.count nameErrorMsg = (if isNonEmptyString props.name = true then 0 else 1) ∧
      errs.count priceErrorMsg = (if isNonNegativeNumber props.price = true then 0 else 1) ∧
      errs.count descriptionErrorMsg =
        (if props.description ≠ JSValue.undefined ∧ ¬ isStringValue props.description = true
          then 1 else 0) ∧
      errs.count categoryErrorMsg =
        (if props.category ≠ JSValue.undefined ∧ ¬ isStringValue props.category = true
          then 1 else 0)) := by
  constructor
  · constructor
    · rintro ⟨p, hp⟩
      rw [createProduct_eq] at hp
      split at hp
      case isTrue hnil => exact (ruleErrors_eq_nil_iff props).mp hnil
      case isFalse => cases hp
    · intro hval
      rw [createProduct_eq, if_pos ((ruleErrors_eq_nil_iff props).mpr hval)]
      exact ⟨_, rfl⟩
  · intro errs he
    rw [createProduct_eq] at he
    split at he
    case isTrue => cases he
    case isFalse hne =>
      rw [CreateProductResult.failure.injEq] at he
      subst he
      exact ⟨hne, count_ruleErrors props⟩

theorem createProduct_collects_all_violations_witness :
    [idErrorMsg, priceErrorMsg] ≠ ([] : List String) :=
  ((createProduct_collects_all_violations 0
    { id := JSValue.str "", name := JSValue.str "Widget",
      price := JSValue.num (JSNumber.finite (-1)), description := JSValue.undefined,
      category := JSValue.undefined, createdAt := JSValue.undefined,
      updatedAt := JSValue.undefined }).2 [idErrorMsg, priceErrorMsg] (by decide)).1

/-- C3: on a valid input supplying a valid `updatedAt` but no `createdAt`,
the entity's `createdAt` is the call time and `updatedAt` keeps the
supplied value (the defaults are independent, not chained); supplying
neither makes `createdAt` the call time and `updatedAt` equal to
`createdAt`. -/
theorem createProduct_timestamp_defaulting (now : Int) (props : ProductProps)
    (p : Product) (h : createProduct now props = CreateProductResult.success p)
    (hnoc : toDateOrUndefined props.createdAt = none) :
    p.createdAt = JSDate.valid now ∧
    (∀ d : JSDate, toDateOrUndefined props.updatedAt = some d → p.updatedAt = d) ∧
    (toDateOrUndefined props.updatedAt = none →
      p.updatedAt = JSDate.valid now ∧ p.updatedAt = p.createdAt) := by
  rw [createProduct_eq] at h
  split at h
  case isTrue hnil =>
    rw [CreateProductResult.success.injEq] at h
    subst h
    have hca : defaultedCreatedAt now props = JSDate.valid now := by
      unfold defaultedCreatedAt
      rw [hnoc]
      rfl
    refine ⟨hca, ?_, ?_⟩
    · intro d hd
      show defaultedUpdatedAt now props = d
      unfold defaultedUpdatedAt
      rw [hd]
      rfl
    · intro hnou
      have hua : defaultedUpdatedAt now props = defaultedCreatedAt now props := by
        unfold defaultedUpdatedAt
        rw [hnou]
        rfl
      refine ⟨hua.trans hca, ?_⟩
      show defaultedUpdatedAt now props = defaultedCreatedAt now props
      exact hua
  case isFalse => cases h

theorem createProduct_timestamp_defaulting_witness :
    Product.updatedAt
      { id := JSValue.str "p1", name := JSValue.str "Widget",
        price := JSValue.num (JSNumber.finite 999), description := JSValue.undefined,
        category := JSValue.undefined, createdAt := JSDate.valid 5,
        updatedAt := JSDate.valid 777 } = JSDate.valid 777 :=
  (createProduct_timestamp_defaulting 5
    { id := JSValue.str "p1", name := JSValue.str "Widget",
      price := JSValue.num (JSNumber.finite 999), description := JSValue.undefined,
      category := JSValue.undefined, createdAt := JSValue.undefined,
      updatedAt := JSValue.date (JSDate.valid 777) }
    _ (by decide) (by decide)).2.1 (JSDate.valid 777) (by decide)

theorem jsTrim_eq_empty_of_all_ws (s : String)
    (hws : (s.data.all fun c => isJSWhitespace c) = true) : jsTrim s = "" := by
  unfold jsTrim
  have hd : s.data.dropWhile (fun c => isJSWhitespace c) = [] := by
    rw [List.dropWhile_eq_nil_iff]
    intro x hx
    exact List.all_eq_true.mp hws x hx
  rw [hd]
  rfl

theorem isNonEmptyString_all_ws (s : String)
    (hws : (s.data.all fun c => isJSWhitespace c) = true) :
    isNonEmptyString (JSValue.str s) = false := by
  show decide ((jsTrim s).length > 0) = false
  rw [jsTrim_eq_empty_of_all_ws s hws]
  decide

/-- C7: an id or name consisting only of whitespace characters is rejected
exactly as the empty string is: the result is identical to the
empty-string input's result, it is never a success, and it is a failure
containing the corresponding required-field message. -/
theorem whitespace_only_rejected_like_empty (now : Int) (props : ProductProps) (s : String)
    (hws : (s.data.all fun c => isJSWhitespace c) = true) :
    createProduct now { props with id := JSValue.str s } =
      createProduct now { props with id := JSValue.str "" } ∧
    createProduct now { props with name := JSValue.str s } =
      createProduct now { props with name := JSValue.str "" } ∧
    (∀ p, createProduct now { props with id := JSValue.str s } ≠
      CreateProductResult.success p) ∧
    (∃ errs, createProduct now { props with id := JSValue.str s } =
      CreateProductResult.failure errs ∧ idErrorMsg ∈ errs) ∧
    (∃ errs, createProduct now { props with name := JSValue.str s } =
      CreateProductResult.failure errs ∧ nameErrorMsg ∈ errs) := by
  have hfs : isNonEmptyString (JSValue.str s) = false := isNonEmptyString_all_ws s hws
  have hfe : isNonEmptyString (JSValue.str "") = false := by decide
  have hid : ruleErrors { props with id := JSValue.str s } =
      ruleErrors { props with id := JSValue.str "" } := by
    unfold ruleErrors
    simp [hfs, hfe]
  have hname : ruleErrors { props with name := JSValue.str s } =
      ruleErrors { props with name := JSValue.str "" } := by
    unfold ruleErrors
    simp [hfs, hfe]
  have hidmem : idErrorMsg ∈ ruleErrors { props with id := JSValue.str s } := by
    unfold ruleErrors
    simp [hfs]
  have hnamemem : nameErrorMsg ∈ ruleErrors { props with name := JSValue.str s } := by
    unfold ruleErrors
    simp [hfs]
  have hidne : ruleErrors { props with id := JSValue.str s } ≠ [] := by
    intro hnil
    rw [hnil] at hidmem
    cases hidmem
  have hnamene : ruleErrors { props with name := JSValue.str s } ≠ [] := by
    intro hnil
    rw [hnil] at hnamemem
    cases hnamemem
  have hidne2 : ruleErrors { props with id := JSValue.str "" } ≠ [] := hid ▸ hidne
  have hnamene2 : ruleErrors { props with name := JSValue.str "" } ≠ [] := hname ▸ hnamene
  refine ⟨?_, ?_, ?_, ?_, ?_⟩
  · rw [createProduct_eq, createProduct_eq, if_neg hidne, if_neg hidne2, hid]
  · rw [createProduct_eq, createProduct_eq, if_neg hnamene, if_neg hnamene2, hname]
  · intro p
    rw [createProduct_eq, if_neg hidne]
    intro hc
    cases hc
  · exact ⟨_, by rw [createProduct_eq, if_neg hidne], hidmem⟩
  · exact ⟨_, by rw [createProduct_eq, if_neg hnamene], hnamemem⟩

theorem whitespace_only_rejected_like_empty_witness :
    createProduct 0
      { id := JSValue.str "   ", name := JSValue.str "Widget",
        price := JSValue.num (JSNumber.finite 999), description := JSValue.undefined,
        category := JSValue.undefined, createdAt := JSValue.undefined,
        updatedAt := JSValue.undefined } =
    createProduct 0
      { id := JSValue.str "", name := JSValue.str "Widget",
        price := JSValue.num (JSNumber.finite 999), description := JSValue.undefined,
        category := JSValue.undefined, createdAt := JSValue.undefined,
        updatedAt := JSValue.undefined } :=
  (whitespace_only_rejected_like_empty 0
    { id := JSValue.str "x", name := JSValue.str "Widget",
      price := JSValue.num (JSNumber.finite 999), description := JSValue.undefined,
      category := JSValue.undefined, createdAt := JSValue.undefined,
      updatedAt := JSValue.undefined } "   " (by decide)).1

/-- C8: the price rule accepts exactly the finite numbers that are at least
zero: a success implies the rule held, and on failure the price message is
present exactly when the rule failed (so NaN, the infinities, negative
numbers and non-numbers are rejected, and every finite non-negative number
passes). -/
theorem price_rule_characterization (now : Int) (props : ProductProps) :
    (isNonNegativeNumber props.price = true ↔
      ∃ q : ℚ, props.price = JSValue.num (JSNumber.finite q) ∧ 0 ≤ q) ∧
    (∀ p, createProduct now props = CreateProductResult.success p →
      isNonNegativeNumber props.price = true) ∧
    (∀ errs, createProduct now props = CreateProductResult.failure errs →
      (priceErrorMsg ∈ errs ↔ isNonNegativeNumber props.price = false)) := by
  refine ⟨isNonNegativeNumber_iff _, ?_, ?_⟩
  · intro p hp
    rw [createProduct_eq] at hp
    split at hp
    case isTrue hnil => exact ((ruleErrors_eq_nil_iff props).mp hnil).2.2.1
    case isFalse => cases hp
  · intro errs he
    rw [createProduct_eq] at he
    split at he
    case isTrue => cases he
    case isFalse hne =>
      rw [CreateProductResult.failure.injEq] at he
      subst he
      have hcount := (count_ruleErrors props).2.2.1
      constructor
      · intro hmem
        by_contra hfb
        have htrue : isNonNegativeNumber props.price = true := by
          cases hb : isNonNegativeNumber props.price
          · exact absurd hb hfb
          · rfl
        rw [if_pos htrue] at hcount
        exact absurd hcount (by simpa [List.count_eq_zero] using hmem)
      · intro hfalse
        rw [hfalse] at hcount
        simp at hcount
        have : (ruleErrors props).count priceErrorMsg ≠ 0 := by omega
        by_contra hnm
        exact this (List.count_eq_zero.mpr hnm)

theorem price_rule_characterization_witness :
    priceErrorMsg ∈ [idErrorMsg, priceErrorMsg] ↔
      isNonNegativeNumber (JSValue.num (JSNumber.finite (-1))) = false :=
  (price_rule_characterization 0
    { id := JSValue.str "", name := JSValue.str "Widget",
      price := JSValue.num (JSNumber.finite (-1)), description := JSValue.undefined,
      category := JSValue.undefined, createdAt := JSValue.undefined,
      updatedAt := JSValue.undefined }).2.2 [idErrorMsg, priceErrorMsg] (by decide)

/-! ## Validator lemmas (`validateProduct`) -/

theorem Pence.failsNonEmptyStringCheck_eq_false_iff (v : JSValue) :
    Pence.failsNonEmptyStringCheck v = false ↔ ∃ s, v = JSValue.str s ∧ jsTrim s ≠ "" := by
  cases v with
  | str s =>
    simp only [Pence.failsNonEmptyStringCheck, jsTruthy, isStringValue, Pence.trimIsEmpty]
    constructor
    · intro h
      refine ⟨s, rfl, ?_⟩
      simp only [Bool.or_eq_false_iff, Bool.not_eq_false', decide_eq_true_eq,
        Bool.not_eq_false, decide_eq_false_iff_not] at h
      exact h.2
    · rintro ⟨s', hs', ht⟩
      cases hs'
      have hne : s ≠ "" := by
        intro he
        subst he
        exact ht rfl
      simp [hne, ht]
  | undefined => simp [Pence.failsNonEmptyStringCheck, jsTruthy]
  | nullValue => simp [Pence.failsNonEmptyStringCheck, jsTruthy]
  | boolean b => simp [Pence.failsNonEmptyStringCheck, isStringValue]
  | num x => simp [Pence.failsNonEmptyStringCheck, isStringValue]
  | date d => simp [Pence.failsNonEmptyStringCheck, isStringValue]
  | obj => simp [Pence.failsNonEmptyStringCheck, isStringValue]

theorem Pence.failsPricePenceCheck_eq_false_iff (v : JSValue) :
    Pence.failsPricePenceCheck v = false ↔
      ∃ q : ℚ, v = JSValue.num (JSNumber.finite q) ∧ 0 ≤ q ∧ q.den = 1 := by
  cases v with
  | num x =>
    cases x with
    | nan => simp [Pence.failsPricePenceCheck, Pence.jsIsInteger, Pence.ltZero, isNumberValue]
    | posInf => simp [Pence.failsPricePenceCheck, Pence.jsIsInteger, Pence.ltZero, isNumberValue]
    | negInf => simp [Pence.failsPricePenceCheck, Pence.jsIsInteger, Pence.ltZero, isNumberValue]
    | finite q =>
      simp only [Pence.failsPricePenceCheck, Pence.jsIsInteger, Pence.ltZero, isNumberValue]
      constructor
      · intro h
        simp only [Bool.or_eq_false_iff, Bool.not_eq_false', decide_eq_true_eq,
          decide_eq_false_iff_not, Bool.not_eq_false] at h
        exact ⟨q, rfl, le_of_not_lt h.1.2, h.2⟩
      · rintro ⟨q', hq', h0, hden⟩
        cases hq'
        simp [not_lt.mpr h0, hden]
  | undefined => simp [Pence.failsPricePenceCheck, isNumberValue]
  | nullValue => simp [Pence.failsPricePenceCheck, isNumberValue]
  | boolean b => simp [Pence.failsPricePenceCheck, isNumberValue]
  | str s => simp [Pence.failsPricePenceCheck, isNumberValue]
  | date d => simp [Pence.failsPricePenceCheck, isNumberValue]
  | obj => simp [Pence.failsPricePenceCheck, isNumberValue]

theorem Pence.failsValidDateCheck_eq_false_iff (v : JSValue) :
    Pence.failsValidDateCheck v = false ↔ ∃ ms : Int, v = JSValue.date (JSDate.valid ms) := by
  cases v with
  | date d => cases d <;> simp [Pence.failsValidDateCheck]
  | undefined => simp [Pence.failsValidDateCheck]
  | nullValue => simp [Pence.failsValidDateCheck]
  | boolean b => simp [Pence.failsValidDateCheck]
  | num x => simp [Pence.failsValidDateCheck]
  | str s => simp [Pence.failsValidDateCheck]
  | obj => simp [Pence.failsValidDateCheck]

theorem Pence.validateProduct_ok_iff (params : Pence.CreateProductParams) :
    Pence.validateProduct params = Except.ok () ↔
      (Pence.failsNonEmptyStringCheck params.id = false ∧
       Pence.failsNonEmptyStringCheck params.name = false ∧
       Pence.failsPricePenceCheck params.pricePence = false ∧
       Pence.failsNonEmptyStringCheck params.description = false ∧
       Pence.failsValidDateCheck params.updatedAt = false) := by
  unfold Pence.validateProduct
  split_ifs with h1 h2 h3 h4 h5 <;> simp_all

/-- C10 (counterexample): the claimed acceptance condition for
`validateProduct` is not equivalent to the implementation: on an input
whose `description` is the non-empty whitespace string `" "` (all other
fields valid), the claim would have the validator return normally, but it
throws the description error (the code trim-checks `description` just like
`id` and `name`). -/
theorem validateProduct_claim_counterexample :
    ¬ (Pence.validateProduct
        { id := JSValue.str "p1", name := JSValue.str "Widget",
          pricePence := JSValue.num (JSNumber.finite 999),
          description := JSValue.str " ",
          updatedAt := JSValue.date (JSDate.valid 0) } = Except.ok () ↔
       Pence.claimedAccepts
        { id := JSValue.str "p1", name := JSValue.str "Widget",
          pricePence := JSValue.num (JSNumber.finite 999),
          description := JSValue.str " ",
          updatedAt := JSValue.date (JSDate.valid 0) }) := by
  intro h
  have hok := h.mpr
    ⟨⟨"p1", rfl, by decide⟩, ⟨"Widget", rfl, by decide⟩,
     ⟨999, rfl, by decide, by decide⟩, ⟨" ", rfl, by decide⟩, ⟨0, rfl⟩⟩
  have herr : Pence.validateProduct
      { id := JSValue.str "p1", name := JSValue.str "Widget",
        pricePence := JSValue.num (JSNumber.finite 999),
        description := JSValue.str " ",
        updatedAt := JSValue.date (JSDate.valid 0) } =
      Except.error Pence.descriptionProductError := rfl
  rw [herr] at hok
  cases hok

/-- C10 (amended): `validateProduct` is fail-fast and stricter than the
factory: it checks id, name, pricePence, description, updatedAt in that
fixed order and throws a `ProductError` for the first violated rule only;
it returns normally iff id and name are strings that are non-empty after
trimming, `pricePence` is a non-negative integer (so non-integer finite
prices accepted by `createProduct` are rejected here), `description` is a
string that is non-empty after trimming, and `updatedAt` is a valid
`Date`. -/
theorem validateProduct_characterization (params : Pence.CreateProductParams) :
    (Pence.validateProduct params = Except.ok () ↔
      ((∃ s, params.id = JSValue.str s ∧ jsTrim s ≠ "") ∧
       (∃ s, params.name = JSValue.str s ∧ jsTrim s ≠ "") ∧
       (∃ q : ℚ, params.pricePence = JSValue.num (JSNumber.finite q) ∧ 0 ≤ q ∧ q.den = 1) ∧
       (∃ s, params.description = JSValue.str s ∧ jsTrim s ≠ "") ∧
       (∃ ms : Int, params.updatedAt = JSValue.date (JSDate.valid ms)))) ∧
    (Pence.failsNonEmptyStringCheck params.id = true →
      Pence.validateProduct params = Except.error Pence.idProductError) ∧
    (Pence.failsNonEmptyStringCheck params.id = false →
      Pence.failsNonEmptyStringCheck params.name = true →
      Pence.validateProduct params = Except.error Pence.nameProductError) ∧
    (Pence.failsNonEmptyStringCheck params.id = false →
      Pence.failsNonEmptyStringCheck params.name = false →
      Pence.failsPricePenceCheck params.pricePence = true →
      Pence.validateProduct params = Except.error Pence.pricePenceProductError) ∧
    (Pence.failsNonEmptyStringCheck params.id = false →
      Pence.failsNonEmptyStringCheck params.name = false →
      Pence.failsPricePenceCheck params.pricePence = false →
      Pence.failsNonEmptyStringCheck params.description = true →
      Pence.validateProduct params = Except.error Pence.descriptionProductError) ∧
    (Pence.failsNonEmptyStringCheck params.id = false →
      Pence.failsNonEmptyStringCheck params.name = false →
      Pence.failsPricePenceCheck params.pricePence = false →
      Pence.failsNonEmptyStringCheck params.description = false →
      Pence.failsValidDateCheck params.updatedAt = true →
      Pence.validateProduct params = Except.error Pence.updatedAtProductError) ∧
    (∀ q : ℚ, 0 ≤ q → q.den ≠ 1 →
      isNonNegativeNumber (JSValue.num (JSNumber.finite q)) = true ∧
      Pence.failsPricePenceCheck (JSValue.num (JSNumber.finite q)) = true) := by
  refine ⟨?_, ?_, ?_, ?_, ?_, ?_, ?_⟩
  · rw [Pence.validateProduct_ok_iff]
    rw [Pence.failsNonEmptyStringCheck_eq_false_iff, Pence.failsNonEmptyStringCheck_eq_false_iff,
      Pence.failsPricePenceCheck_eq_false_iff, Pence.failsNonEmptyStringCheck_eq_false_iff,
      Pence.failsValidDateCheck_eq_false_iff]
  · intro h1
    unfold Pence.validateProduct
    rw [if_pos h1]
  · intro h1 h2
    unfold Pence.validateProduct
    rw [if_neg (by simp [h1]), if_pos h2]
  · intro h1 h2 h3
    unfold Pence.validateProduct
    rw [if_neg (by simp [h1]), if_neg (by simp [h2]), if_pos h3]
  · intro h1 h2 h3 h4
    unfold Pence.validateProduct
    rw [if_neg (by simp [h1]), if_neg (by simp [h2]), if_neg (by simp [h3]), if_pos h4]
  · intro h1 h2 h3 h4 h5
    unfold Pence.validateProduct
    rw [if_neg (by simp [h1]), if_neg (by simp [h2]), if_neg (by simp [h3]),
      if_neg (by simp [h4]), if_pos h5]
  · intro q h0 hden
    constructor
    · simp [isNonNegativeNumber, h0]
    · simp [Pence.failsPricePenceCheck, Pence.jsIsInteger, hden]

theorem validateProduct_characterization_witness :
    Pence.validateProduct
      { id := JSValue.str "p1", name := JSValue.str "Widget",
        pricePence := JSValue.num (JSNumber.finite 999),
        description := JSValue.str "A widget",
        updatedAt := JSValue.date (JSDate.valid 0) } = Except.ok () :=
  (validateProduct_characterization
    { id := JSValue.str "p1", name := JSValue.str "Widget",
      pricePence := JSValue.num (JSNumber.finite 999),
      description := JSValue.str "A widget",
      updatedAt := JSValue.date (JSDate.valid 0) }).1.mpr
    ⟨⟨"p1", rfl, by decide⟩, ⟨"Widget", rfl, by decide⟩,
     ⟨999, rfl, by decide, by decide⟩, ⟨"A widget", rfl, by decide⟩, ⟨0, rfl⟩⟩

/-! ## Calendar lemmas -/

theorem yoeStart_succ (yoe : Nat) (h : yoe ≤ 398) :
    yoeStart (yoe + 1) = yoeStart yoe + yoeLen yoe := by
  unfold yoeStart yoeLen
  split <;> omega

theorem yearScanAux_spec (fuel yoe doe : Nat) (hf : yoe + fuel = 399)
    (hb : yoeStart yoe + doe ≤ 146096) :
    yoeStart (yearScanAux fuel yoe doe).1 + (yearScanAux fuel yoe doe).2 = yoeStart yoe + doe ∧
    (yearScanAux fuel yoe doe).2 < yoeLen (yearScanAux fuel yoe doe).1 ∧
    yoe ≤ (yearScanAux fuel yoe doe).1 ∧ (yearScanAux fuel yoe doe).1 ≤ 399 := by
  induction fuel generalizing yoe doe with
  | zero =>
    have hy : yoe = 399 := by omega
    subst hy
    have h366 : yoeLen 399 = 366 := by unfold yoeLen; norm_num
    have hs : yoeStart 399 = 145731 := by unfold yoeStart; norm_num
    exact ⟨rfl, show doe < yoeLen 399 by omega, le_refl _, le_refl _⟩
  | succ n ih =>
    simp only [yearScanAux]
    split
    · have hs := yoeStart_succ yoe (by omega)
      have h2 := ih (yoe + 1) (doe - yoeLen yoe) (by omega) (by omega)
      exact ⟨by omega, h2.2.1, by omega, h2.2.2.2⟩
    · exact ⟨rfl, show doe < yoeLen yoe by omega, le_refl _, show yoe ≤ 399 by omega⟩

theorem monthExtract (doy : Nat) (h1 : doy ≤ 365) :
    (5 * doy + 2) / 153 ≤ 11 ∧ (153 * ((5 * doy + 2) / 153) + 2) / 5 ≤ doy ∧
    doy < (153 * ((5 * doy + 2) / 153 + 1) + 2) / 5 ∧
    1 ≤ doy - (153 * ((5 * doy + 2) / 153) + 2) / 5 + 1 ∧
    doy - (153 * ((5 * doy + 2) / 153) + 2) / 5 + 1 ≤ 31 := by
  omega

theorem daysFromCivil_march (y m d era yoe : Int) (hy : y = yoe + era * 400)
    (h0 : 0 ≤ yoe) (h1 : yoe ≤ 399) (hm3 : 3 ≤ m) (hm12 : m ≤ 12) :
    daysFromCivil y m d =
      era * 146097 + (yoe * 365 + yoe / 4 - yoe / 100 + ((153 * (m - 3) + 2) / 5 + d - 1))
        - 719468 := by
  unfold daysFromCivil
  dsimp only
  rw [if_neg (show ¬ m ≤ 2 by omega), if_pos (show 2 < m by omega)]
  omega

theorem daysFromCivil_janfeb (y m d era yoe : Int) (hy : y = yoe + era * 400 + 1)
    (h0 : 0 ≤ yoe) (h1 : yoe ≤ 399) (hm1 : 1 ≤ m) (hm2 : m ≤ 2) :
    daysFromCivil y m d =
      era * 146097 + (yoe * 365 + yoe / 4 - yoe / 100 + ((153 * (m + 9) + 2) / 5 + d - 1))
        - 719468 := by
  unfold daysFromCivil
  dsimp only
  rw [if_pos hm2, if_neg (show ¬ 2 < m by omega)]
  omega

theorem civilFromDays_spec (z : Int) :
    daysFromCivil (civilFromDays z).1 (civilFromDays z).2.1 (civilFromDays z).2.2 = z ∧
    1 ≤ (civilFromDays z).2.1 ∧ (civilFromDays z).2.1 ≤ 12 ∧
    1 ≤ (civilFromDays z).2.2 ∧ (civilFromDays z).2.2 ≤ 31 ∧
    400 * ((z + 719468) / 146097) ≤ (civilFromDays z).1 ∧
    (civilFromDays z).1 ≤ 400 * ((z + 719468) / 146097) + 400 := by
  have h0 : (0:Int) ≤ z + 719468 - (z + 719468) / 146097 * 146097 := by omega
  have h1 : (z + 719468 - (z + 719468) / 146097 * 146097).toNat ≤ 146096 := by omega
  have h2 : ((z + 719468 - (z + 719468) / 146097 * 146097).toNat : Int)
      = z + 719468 - (z + 719468) / 146097 * 146097 := by omega
  have hb : yoeStart 0 + (z + 719468 - (z + 719468) / 146097 * 146097).toNat ≤ 146096 := by
    unfold yoeStart; omega
  have hspec := yearScanAux_spec 399 0 ((z + 719468 - (z + 719468) / 146097 * 146097).toNat)
    (by omega) hb
  rcases hsc : yearScanAux 399 0 ((z + 719468 - (z + 719468) / 146097 * 146097).toNat)
    with ⟨yoe, doy⟩
  rw [hsc] at hspec
  simp only at hspec
  have hdoy : doy ≤ 365 := by
    have hlen := hspec.2.1
    unfold yoeLen at hlen
    split at hlen <;> omega
  have hm := monthExtract doy hdoy
  unfold yoeStart at hspec
  unfold civilFromDays
  dsimp only
  rw [hsc]
  dsimp only
  by_cases hlt : (5 * doy + 2) / 153 < 10
  · rw [if_pos hlt]
    rw [if_neg (show ¬ ((5 * doy + 2) / 153 + 3 ≤ 2) by omega)]
    rw [daysFromCivil_march _ _ _ ((z + 719468) / 146097) (yoe : Int) (by omega)
      (by omega) (by omega) (by omega) (by omega)]
    omega
  · rw [if_neg hlt]
    rw [if_pos (show (5 * doy + 2) / 153 - 9 ≤ 2 by omega)]
    rw [daysFromCivil_janfeb _ _ _ ((z + 719468) / 146097) (yoe : Int) (by omega)
      (by omega) (by omega) (by omega) (by omega)]
    omega

/-! ## Digit and parser lemmas -/

theorem digitChar_toNat (d : Nat) (h : d ≤ 9) : (digitChar d).toNat = 48 + d := by
  interval_cases d <;> decide

theorem isDigitChar_digitChar (d : Nat) (h : d ≤ 9) : isDigitChar (digitChar d) = true := by
  interval_cases d <;> decide

theorem digitChar_ne_plus (d : Nat) (h : d ≤ 9) : digitChar d ≠ '+' := by
  interval_cases d <;> decide

theorem digitChar_ne_minus (d : Nat) (h : d ≤ 9) : digitChar d ≠ '-' := by
  interval_cases d <;> decide

theorem readDigitsAux_padDigits (n : Nat) :
    ∀ (v acc : Nat), v < 10 ^ n → ∀ (rest : List Char),
      readDigitsAux n acc (padDigits n v ++ rest) = some (acc * 10 ^ n + v, rest) := by
  induction n with
  | zero =>
    intro v acc hv rest
    interval_cases v
    simp [padDigits, readDigitsAux]
  | succ n ih =>
    intro v acc hv rest
    have hpos : 0 < 10 ^ n := pow_pos (by norm_num) n
    have hq : v / 10 ^ n ≤ 9 := by
      have h9 : v / 10 ^ n < 10 := (Nat.div_lt_iff_lt_mul hpos).mpr (by
        rw [pow_succ] at hv
        omega)
      omega
    have hcons : padDigits (n + 1) v =
        digitChar (v / 10 ^ n) :: padDigits n (v % 10 ^ n) := rfl
    rw [hcons, List.cons_append]
    show (if isDigitChar (digitChar (v / 10 ^ n)) then
        readDigitsAux n (acc * 10 + ((digitChar (v / 10 ^ n)).toNat - 48))
          (padDigits n (v % 10 ^ n) ++ rest)
      else none) = some (acc * 10 ^ (n + 1) + v, rest)
    rw [if_pos (isDigitChar_digitChar _ hq), digitChar_toNat _ hq]
    have h48 : 48 + v / 10 ^ n - 48 = v / 10 ^ n := Nat.add_sub_cancel_left 48 (v / 10 ^ n)
    rw [h48, ih (v % 10 ^ n) _ (Nat.mod_lt _ hpos) rest]
    have harith : (acc * 10 + v / 10 ^ n) * 10 ^ n + v % 10 ^ n = acc * 10 ^ (n + 1) + v := by
      calc (acc * 10 + v / 10 ^ n) * 10 ^ n + v % 10 ^ n
          = acc * (10 ^ n * 10) + (v / 10 ^ n * 10 ^ n + v % 10 ^ n) := by ring
        _ = acc * (10 ^ n * 10) + v := by rw [Nat.div_add_mod']
        _ = acc * 10 ^ (n + 1) + v := by rw [pow_succ]
    rw [harith]

theorem expectChar_cons (c : Char) (cs : List Char) : expectChar c (c :: cs) = some cs := by
  simp [expectChar]

theorem parseYearPart_digits (v : Nat) (hv : v < 10000) (rest : List Char) :
    parseYearPart (padDigits 4 v ++ rest) = some ((v : Int), rest) := by
  have hq : v / 10 ^ 3 ≤ 9 := by omega
  have hcons : padDigits 4 v = digitChar (v / 10 ^ 3) :: padDigits 3 (v % 10 ^ 3) := rfl
  rw [hcons, List.cons_append, parseYearPart]
  rw [if_neg (digitChar_ne_plus _ hq), if_neg (digitChar_ne_minus _ hq),
    ← List.cons_append, ← hcons, readDigitsAux_padDigits 4 v 0 (by omega) rest]
  simp

theorem parseYearPart_plus (v : Nat) (hv : v < 1000000) (rest : List Char) :
    parseYearPart ('+' :: (padDigits 6 v ++ rest)) = some ((v : Int), rest) := by
  rw [parseYearPart, if_pos rfl, readDigitsAux_padDigits 6 v 0 (by omega) rest]
  simp

theorem parseYearPart_minus (v : Nat) (hv : v < 1000000) (rest : List Char) :
    parseYearPart ('-' :: (padDigits 6 v ++ rest)) = some (-(v : Int), rest) := by
  rw [parseYearPart, if_neg (by decide), if_pos rfl,
    readDigitsAux_padDigits 6 v 0 (by omega) rest]
  simp

theorem parseISORest_spec (y m d : Int) (msod : Nat)
    (hm1 : 1 ≤ m) (hm12 : m ≤ 12) (hd1 : 1 ≤ d) (hd31 : d ≤ 31) (hmsod : msod < 86400000)
    (hrange : (daysFromCivil y m d * 86400000 + (msod : Int)).natAbs ≤ 8640000000000000) :
    parseISORest y ('-' :: (padDigits 2 m.toNat ++ ('-' :: (padDigits 2 d.toNat ++
      ('T' :: (padDigits 2 (msod / 3600000) ++ (':' :: (padDigits 2 (msod / 60000 % 60) ++
      (':' :: (padDigits 2 (msod / 1000 % 60) ++ ('.' :: (padDigits 3 (msod % 1000) ++
      ['Z'])))))))))))) =
    some (daysFromCivil y m d * 86400000 + (msod : Int)) := by
  have hp2 : (10:Nat) ^ 2 = 100 := by norm_num
  have hp3 : (10:Nat) ^ 3 = 1000 := by norm_num
  have hcm : ((m.toNat : Int)) = m := by omega
  have hcd2 : ((d.toNat : Int)) = d := by omega
  have hsum : ((msod / 3600000 : Nat) : Int) * 3600000 +
      ((msod / 60000 % 60 : Nat) : Int) * 60000 +
      ((msod / 1000 % 60 : Nat) : Int) * 1000 + ((msod % 1000 : Nat) : Int) =
      (msod : Int) := by omega
  unfold parseISORest
  simp only [expectChar_cons,
    readDigitsAux_padDigits 2 m.toNat 0 (by rw [hp2]; omega),
    readDigitsAux_padDigits 2 d.toNat 0 (by rw [hp2]; omega),
    readDigitsAux_padDigits 2 (msod / 3600000) 0 (by rw [hp2]; omega),
    readDigitsAux_padDigits 2 (msod / 60000 % 60) 0 (by rw [hp2]; omega),
    readDigitsAux_padDigits 2 (msod / 1000 % 60) 0 (by rw [hp2]; omega),
    readDigitsAux_padDigits 3 (msod % 1000) 0 (by rw [hp3]; omega),
    Nat.zero_mul, Nat.zero_add]
  rw [if_pos (show 1 ≤ m.toNat ∧ m.toNat ≤ 12 ∧ 1 ≤ d.toNat ∧ d.toNat ≤ 31 ∧
      msod / 3600000 ≤ 23 ∧ msod / 60000 % 60 ≤ 59 ∧ msod / 1000 % 60 ≤ 59 from
    ⟨by omega, by omega, by omega, by omega, by omega, by omega, by omega⟩)]
  rw [hcm, hcd2, hsum, if_pos hrange]

theorem parseISOChars_isoCharsOfMs (ms : Int) (h : ms.natAbs ≤ 8640000000000000) :
    parseISOChars (isoCharsOfMs ms) = some ms := by
  have hmod0 : (0:Int) ≤ ms % 86400000 := by omega
  have hmod1 : ms % 86400000 < 86400000 := by omega
  have hmsodc : (((ms % 86400000).toNat : Nat) : Int) = ms % 86400000 := by omega
  have hz : ms / 86400000 * 86400000 + ms % 86400000 = ms := by omega
  have hzb1 : -100000001 ≤ ms / 86400000 := by omega
  have hzb2 : ms / 86400000 ≤ 100000000 := by omega
  have hciv := civilFromDays_spec (ms / 86400000)
  rcases hcd : civilFromDays (ms / 86400000) with ⟨y, m, d⟩
  rw [hcd] at hciv
  simp only at hciv
  obtain ⟨hback, hm1, hm12, hd1, hd31, hylo, hyhi⟩ := hciv
  have hyb1 : -280000 ≤ y := by omega
  have hyb2 : y ≤ 280000 := by omega
  have hmsod : (ms % 86400000).toNat < 86400000 := by omega
  have hrange : (daysFromCivil y m d * 86400000 +
      (((ms % 86400000).toNat : Nat) : Int)).natAbs ≤ 8640000000000000 := by
    rw [hback]
    omega
  unfold isoCharsOfMs
  dsimp only
  rw [hcd]
  dsimp only
  by_cases hy : 0 ≤ y ∧ y ≤ 9999
  · rw [if_pos hy]
    unfold parseISOChars
    simp only [List.cons_append, List.append_assoc]
    rw [parseYearPart_digits y.toNat (by omega)]
    dsimp only
    rw [show ((y.toNat : Int)) = y by omega]
    rw [parseISORest_spec y m d ((ms % 86400000).toNat) hm1 hm12 hd1 hd31 hmsod hrange]
    exact congrArg some (by omega)
  · rw [if_neg hy]
    by_cases hneg : y < 0
    · rw [if_pos hneg]
      unfold parseISOChars
      simp only [List.cons_append, List.append_assoc]
      rw [parseYearPart_minus y.natAbs (by omega)]
      dsimp only
      rw [show -((y.natAbs : Int)) = y by omega]
      rw [parseISORest_spec y m d ((ms % 86400000).toNat) hm1 hm12 hd1 hd31 hmsod hrange]
      exact congrArg some (by omega)
    · rw [if_neg hneg]
      unfold parseISOChars
      simp only [List.cons_append, List.append_assoc]
      rw [parseYearPart_plus y.natAbs (by omega)]
      dsimp only
      rw [show ((y.natAbs : Int)) = y by omega]
      rw [parseISORest_spec y m d ((ms % 86400000).toNat) hm1 hm12 hd1 hd31 hmsod hrange]
      exact congrArg some (by omega)

/-! ## Storage adapter lemmas -/

theorem parseDateString_isoString (ms : Int) (h : ms.natAbs ≤ 8640000000000000) :
    parseDateString (String.mk (isoCharsOfMs ms)) = JSDate.valid ms := by
  unfold parseDateString
  rw [show (String.mk (isoCharsOfMs ms)).data = isoCharsOfMs ms from rfl]
  rw [parseISOChars_isoCharsOfMs ms h]

theorem Cosmos.toDTO_valid (p : Pence.Product) (ms : Int)
    (hms : p.updatedAt = JSDate.valid ms) :
    Cosmos.toDTO p = some
      { id := p.id, name := p.name, pricePence := p.pricePence,
        description := p.description, updatedAt := String.mk (isoCharsOfMs ms),
        _etag := none, _ts := none } := by
  unfold Cosmos.toDTO dateToISOString
  rw [hms]
  rfl

theorem Cosmos.toDomain_mk (i n : String) (pp : JSNumber) (desc u : String)
    (et : Option String) (tz : Option Int) :
    Cosmos.toDomain
      { id := i, name := n, pricePence := pp, description := desc,
        updatedAt := u, _etag := et, _ts := tz } =
      { id := i, name := n, pricePence := pp, description := desc,
        updatedAt := parseDateString u } := rfl

theorem find?_append_of_none {α : Type} (p : α → Bool) (l₁ l₂ : List α)
    (h : l₁.find? p = none) : (l₁ ++ l₂).find? p = l₂.find? p := by
  induction l₁ with
  | nil => simp
  | cons a l ih =>
    rw [List.find?] at h
    cases hpa : p a with
    | true => rw [hpa] at h; cases h
    | false =>
      rw [hpa] at h
      rw [List.cons_append, List.find?, hpa]
      exact ih h

theorem find?_filter_out (s : Cosmos.Store) (id : String) :
    ((s.filter fun d => !(d.id == id)).find? fun d => d.id == id) = none := by
  rw [List.find?_eq_none]
  intro x hx
  have := (List.mem_filter.mp hx).2
  simp at this
  simp [this]

theorem any_filter_out (s : Cosmos.Store) (id : String) :
    ((s.filter fun d => !(d.id == id)).any fun d => d.id == id) = false := by
  rw [Bool.eq_false_iff]
  intro hany
  obtain ⟨x, hx, hpx⟩ := List.any_eq_true.mp hany
  have := (List.mem_filter.mp hx).2
  rw [hpx] at this
  cases this

theorem find?_singleton_self (dto : Cosmos.ProductDTO) (id : String) (h : dto.id = id) :
    (List.find? (fun d => d.id == id) [dto]) = some dto := by
  simp [List.find?, h]

theorem find?_of_any_false (s : Cosmos.Store) (id : String)
    (h : (s.any fun d => d.id == id) = false) :
    (s.find? fun d => d.id == id) = none := by
  rw [List.find?_eq_none]
  intro x hx hpx
  rw [Bool.eq_false_iff] at h
  exact h (List.any_eq_true.mpr ⟨x, hx, hpx⟩)

/-- C4: the adapter's write translation followed by its read translation is
the identity on domain-visible fields: `toDomain (toDTO p)` is `p` (the
`updatedAt` date survives serialization to an ISO-8601 string and back at
millisecond precision, and backend metadata attached by the store is not
surfaced), `save p` returns `p`, and `getById p.id` after `save p` yields
`p`, for every entity whose `updatedAt` is a valid date. -/
theorem save_getById_roundtrip (s : Cosmos.Store) (etag : String) (ts : Int)
    (p : Pence.Product) (ms : Int) (hms : p.updatedAt = JSDate.valid ms)
    (hrange : ms.natAbs ≤ 8640000000000000) :
    (∃ dto, Cosmos.toDTO p = some dto ∧ Cosmos.toDomain dto = p) ∧
    (Cosmos.save s etag ts p).2 = Except.ok p ∧
    Cosmos.getById (Cosmos.save s etag ts p).1 p.id = Except.ok (some p) := by
  have hdto := Cosmos.toDTO_valid p ms hms
  have hp : p =
      { id := p.id, name := p.name, pricePence := p.pricePence,
        description := p.description, updatedAt := JSDate.valid ms } := by
    cases p
    simp at hms ⊢
    exact hms
  have hdom : ∀ (et : Option String) (tz : Option Int),
      Cosmos.toDomain
        { id := p.id, name := p.name, pricePence := p.pricePence,
          description := p.description, updatedAt := String.mk (isoCharsOfMs ms),
          _etag := et, _ts := tz } = p := by
    intro et tz
    rw [Cosmos.toDomain_mk, parseDateString_isoString ms hrange]
    exact hp.symm
  refine ⟨⟨_, hdto, hdom none none⟩, ?_, ?_⟩
  · simp only [Cosmos.save, hdto, Cosmos.upsertItem, Cosmos.saveOfOutcome]
    rw [hdom (some etag) (some ts)]
  · simp only [Cosmos.save, hdto, Cosmos.upsertItem]
    unfold Cosmos.getById Cosmos.readItem
    rw [find?_append_of_none _ _ _ (find?_filter_out s p.id),
      find?_singleton_self _ p.id rfl]
    dsimp only [Cosmos.getByIdOfOutcome]
    rw [hdom (some etag) (some ts)]

theorem save_getById_roundtrip_witness :
    (Cosmos.save [] "etag1" 7
      { id := "p1", name := "Widget", pricePence := JSNumber.finite 999,
        description := "A widget", updatedAt := JSDate.valid 0 }).2 =
    Except.ok
      { id := "p1", name := "Widget", pricePence := JSNumber.finite 999,
        description := "A widget", updatedAt := JSDate.valid 0 } :=
  (save_getById_roundtrip [] "etag1" 7
    { id := "p1", name := "Widget", pricePence := JSNumber.finite 999,
      description := "A widget", updatedAt := JSDate.valid 0 } 0 rfl (by decide)).2.1

/-- C5: `getById` never fails for "not found": a backend 404 condition
(whether signalled through `code` or `statusCode`) yields the absent result
`null`, reading an id absent from the store yields `null`, and any other
backend failure propagates to the caller unchanged. -/
theorem getById_absence (s : Cosmos.Store) (id : String) (e : Cosmos.CosmosError) :
    ((∀ dto ∈ s, dto.id ≠ id) → Cosmos.getById s id = Except.ok none) ∧
    (Cosmos.isNotFound404 e = true →
      Cosmos.getByIdOfOutcome (Cosmos.CosmosOutcome.thrown e) = Except.ok none) ∧
    (Cosmos.isNotFound404 e = false →
      Cosmos.getByIdOfOutcome (Cosmos.CosmosOutcome.thrown e) = Except.error e) := by
  refine ⟨?_, ?_, ?_⟩
  · intro habs
    unfold Cosmos.getById Cosmos.readItem
    rw [List.find?_eq_none.mpr (fun dto hdto => by simp [habs dto hdto])]
    dsimp only [Cosmos.getByIdOfOutcome]
    rw [if_pos (show Cosmos.isNotFound404 Cosmos.notFoundError = true from rfl)]
  · intro h404
    dsimp only [Cosmos.getByIdOfOutcome]
    rw [if_pos h404]
  · intro hother
    dsimp only [Cosmos.getByIdOfOutcome]
    rw [if_neg (by simp [hother])]

theorem getById_absence_witness :
    Cosmos.getById [] "p1" = Except.ok none ∧
    Cosmos.getByIdOfOutcome
      (Cosmos.CosmosOutcome.thrown
        { name := "ServiceUnavailable", code := some 503, statusCode := some 503 }) =
      Except.error { name := "ServiceUnavailable", code := some 503, statusCode := some 503 } :=
  ⟨(getById_absence [] "p1"
      { name := "ServiceUnavailable", code := some 503, statusCode := some 503 }).1
    (by simp),
   (getById_absence [] "p1"
      { name := "ServiceUnavailable", code := some 503, statusCode := some 503 }).2.2
    (by decide)⟩

/-- C6: `delete` is idempotent: it always completes successfully against
the store (including on an id that is absent, where the backend's 404 is
swallowed as a no-op), a second delete of the same id also succeeds,
`getById` after `delete id` returns absent, deleting an absent id leaves
the store unchanged, and any backend failure other than a 404 propagates
unchanged. -/
theorem delete_idempotent (s : Cosmos.Store) (id : String) (e : Cosmos.CosmosError) :
    (Cosmos.delete s id).2 = Except.ok () ∧
    (Cosmos.delete (Cosmos.delete s id).1 id).2 = Except.ok () ∧
    Cosmos.getById (Cosmos.delete s id).1 id = Except.ok none ∧
    ((∀ dto ∈ s, dto.id ≠ id) → Cosmos.delete s id = (s, Except.ok ())) ∧
    (Cosmos.isNotFound404 e = false →
      Cosmos.deleteOfOutcome (Cosmos.CosmosOutcome.thrown e) = Except.error e) := by
  have hofok : ∀ r : Cosmos.CosmosOutcome Unit,
      (∀ e', r = Cosmos.CosmosOutcome.thrown e' → Cosmos.isNotFound404 e' = true) →
      Cosmos.deleteOfOutcome r = Except.ok () := by
    intro r hr
    match r with
    | Cosmos.CosmosOutcome.resolved _ => rfl
    | Cosmos.CosmosOutcome.thrown e' =>
      dsimp only [Cosmos.deleteOfOutcome]
      rw [if_pos (hr e' rfl)]
  have hgetnone : ∀ t : Cosmos.Store, (t.find? fun d => d.id == id) = none →
      Cosmos.getById t id = Except.ok none := by
    intro t ht
    unfold Cosmos.getById Cosmos.readItem
    rw [ht]
    rfl
  have hfst : (Cosmos.delete s id).1 =
      if (s.any fun d => d.id == id) then s.filter (fun d => !(d.id == id)) else s := by
    unfold Cosmos.delete Cosmos.deleteItem
    split <;> rfl
  refine ⟨?_, ?_, ?_, ?_, ?_⟩
  · unfold Cosmos.delete Cosmos.deleteItem
    split
    · rfl
    · rfl
  · rw [hfst]
    split
    case isTrue h =>
      unfold Cosmos.delete Cosmos.deleteItem
      rw [if_neg (show ¬ ((s.filter fun d => !(d.id == id)).any fun d => d.id == id) = true
        from by simp [any_filter_out])]
      rfl
    case isFalse h =>
      unfold Cosmos.delete Cosmos.deleteItem
      rw [if_neg h]
      rfl
  · rw [hfst]
    split
    case isTrue h => exact hgetnone _ (find?_filter_out s id)
    case isFalse h =>
      exact hgetnone _ (find?_of_any_false s id (by
        cases hb : (s.any fun d => d.id == id)
        · rfl
        · exact absurd hb h))
  · intro habs
    unfold Cosmos.delete Cosmos.deleteItem
    rw [if_neg (show ¬ (s.any fun d => d.id == id) = true from by
      intro hany
      obtain ⟨x, hx, hpx⟩ := List.any_eq_true.mp hany
      exact habs x hx (by simpa using hpx))]
    rfl
  · intro hother
    dsimp only [Cosmos.deleteOfOutcome]
    rw [if_neg (by simp [hother])]

theorem delete_idempotent_witness :
    (Cosmos.delete [] "p1").2 = Except.ok () ∧
    Cosmos.delete [] "p1" = ([], Except.ok ()) :=
  ⟨(delete_idempotent [] "p1"
      { name := "ServiceUnavailable", code := some 503, statusCode := some 503 }).1,
   (delete_idempotent [] "p1"
      { name := "ServiceUnavailable", code := some 503, statusCode := some 503 }).2.2.2.1
    (by simp)⟩
